import Mathlib

/-!
Verification of the qdrant payload field index facade, the quantized
multivector query scorer, the gRPC auth middleware and the actix error
helpers, against their natural-language specification.

Rust sources embedded here:
- `lib/segment/src/index/field_index/field_index_base.rs`
- `lib/segment/src/vector_storage/quantized/quantized_multi_query_scorer.rs`
- `src/tonic/auth.rs`
- `src/actix/helpers.rs`

Machine integers are modelled as `Nat`/`Int` (no overflow is relevant to the
properties below); fallible Rust functions returning `Result` are modelled
with `Except`.
-/

/-- `serde_json::Value`: the dynamic payload value type.  Numbers are
modelled as integers; nothing below inspects the numeric payload. -/
inductive JsonValue where
  | null : JsonValue
  | bool (b : Bool) : JsonValue
  | num (n : Int) : JsonValue
  | str (s : String) : JsonValue
  | arr (xs : List JsonValue) : JsonValue
  | obj (fields : List (String × JsonValue)) : JsonValue

/-- `Match` from `segment::types`: the match arm of a field condition
(`value` / `any-of` / `except` / `text` / `phrase`). -/
inductive MatchArm where
  | value (v : JsonValue) : MatchArm
  | anyOf (vs : List JsonValue) : MatchArm
  | exceptOf (vs : List JsonValue) : MatchArm
  | text (t : String) : MatchArm
  | phrase (p : String) : MatchArm

/-- A numeric/datetime range (`RangeInterface`): optional `lt`/`gt`/`gte`/`lte`
bounds, keys modelled as integers. -/
structure NumRange where
  lt : Option Int
  gt : Option Int
  gte : Option Int
  lte : Option Int

/-- A geo query shape: bounding box, radius or polygon.  The geometry payload
is irrelevant to the routing and estimation properties proved below, so each
arm carries an abstract description. -/
inductive GeoQuery where
  | boundingBox (descr : Nat) : GeoQuery
  | radius (descr : Nat) : GeoQuery
  | polygon (descr : Nat) : GeoQuery

/-- `FieldCondition`: a tagged record with optional arms, mirroring
`segment::types::FieldCondition` (the arms used by the embedded code). -/
structure FieldCondition where
  matchArm : Option MatchArm
  range : Option NumRange
  geo : Option GeoQuery
  isNullArm : Option Bool
  isEmptyArm : Option Bool

/-- Cardinality estimate triple, `CardinalityEstimation`: point counts. -/
structure CardinalityEstimation where
  min : Nat
  exp : Nat
  max : Nat

/-- Modelled from the spec (§4.2): the numeric index engine
(`NumericIndex`, not under `src/`): an equi-depth histogram of key buckets
`(lo, hi, count)` plus the number of indexed points, and an abstract
range-filter result function. -/
structure NumericIndexModel where
  buckets : List (Int × Int × Nat)
  pointCount : Nat
  rangePoints : NumRange → List Nat

/-- Modelled from the spec (§4.3): the map index engine (`MapIndex`, not
under `src/`): per-value posting sizes, per-value posting lists, the full
point list and the number of indexed points. -/
structure MapIndexModel where
  postingSize : JsonValue → Nat
  postingList : JsonValue → List Nat
  exceptPoints : List JsonValue → List Nat
  pointCount : Nat

/-- Modelled from the spec (§4.4): the full-text index engine
(`FullTextIndex`, not under `src/`): the tokenizer, per-token posting sizes,
text/phrase search results, the payload re-check used by
`special_check_condition` (`check_payload_match::<IS_PHRASE>`), and the
number of indexed points. -/
structure FullTextIndexModel where
  tokenize : String → List String
  postingSize : String → Nat
  searchText : String → List Nat
  searchPhrase : String → List Nat
  checkPayloadMatch : Bool → JsonValue → String → Bool
  pointCount : Nat

/-- Modelled from the spec (§4.5): the geo index engine (`GeoMapIndex`, not
under `src/`): cell occupancy per query and query results. -/
structure GeoIndexModel where
  occupancy : GeoQuery → Nat
  geoPoints : GeoQuery → List Nat
  pointCount : Nat

/-- Modelled from the spec (§4.6): the bool index engine (`BoolIndex`, not
under `src/`): sizes and members of the has-true / has-false bitmaps. -/
structure BoolIndexModel where
  trueCount : Nat
  falseCount : Nat
  truePoints : List Nat
  falsePoints : List Nat
  pointCount : Nat

/-- Modelled from the spec (§4.6): the null index engine (`MmapNullIndex`,
not under `src/`): sizes and members of the is-null / is-empty bitmaps. -/
structure NullIndexModel where
  nullCount : Nat
  emptyCount : Nat
  nullPoints : List Nat
  emptyPoints : List Nat
  notNullPoints : List Nat
  notEmptyPoints : List Nat
  pointCount : Nat

/-- `FieldIndex`: the closed sum type over all payload index variants
(`field_index_base.rs`, lines 133–145).  Each variant carries the model of
its engine. -/
inductive FieldIndex where
  | IntIndex (m : NumericIndexModel) : FieldIndex
  | DatetimeIndex (m : NumericIndexModel) : FieldIndex
  | IntMapIndex (m : MapIndexModel) : FieldIndex
  | KeywordIndex (m : MapIndexModel) : FieldIndex
  | FloatIndex (m : NumericIndexModel) : FieldIndex
  | GeoIndex (m : GeoIndexModel) : FieldIndex
  | FullTextIndex (m : FullTextIndexModel) : FieldIndex
  | BoolIndex (m : BoolIndexModel) : FieldIndex
  | UuidIndex (m : NumericIndexModel) : FieldIndex
  | UuidMapIndex (m : MapIndexModel) : FieldIndex
  | NullIndex (m : NullIndexModel) : FieldIndex

/-- The variant tag of a `FieldIndex` (mirrors `PayloadIndexType`). -/
inductive FieldIndexKind where
  | IntIndex | DatetimeIndex | IntMapIndex | KeywordIndex | FloatIndex
  | GeoIndex | FullTextIndex | BoolIndex | UuidIndex | UuidMapIndex
  | NullIndex
deriving DecidableEq

def FieldIndex.kind : FieldIndex → FieldIndexKind
  | .IntIndex _ => .IntIndex
  | .DatetimeIndex _ => .DatetimeIndex
  | .IntMapIndex _ => .IntMapIndex
  | .KeywordIndex _ => .KeywordIndex
  | .FloatIndex _ => .FloatIndex
  | .GeoIndex _ => .GeoIndex
  | .FullTextIndex _ => .FullTextIndex
  | .BoolIndex _ => .BoolIndex
  | .UuidIndex _ => .UuidIndex
  | .UuidMapIndex _ => .UuidMapIndex
  | .NullIndex _ => .NullIndex

/-- `FieldIndex::special_check_condition` (`field_index_base.rs`,
lines 173–200): every variant returns `None` except a full-text index on a
text/phrase match, which re-checks the payload with the index tokenizer.
The hardware counter argument does not influence the result and is
omitted. -/
def FieldIndex.special_check_condition (idx : FieldIndex)
    (condition : FieldCondition) (payloadValue : JsonValue) : Option Bool :=
  match idx with
  | .IntIndex _ => none
  | .DatetimeIndex _ => none
  | .IntMapIndex _ => none
  | .KeywordIndex _ => none
  | .FloatIndex _ => none
  | .GeoIndex _ => none
  | .BoolIndex _ => none
  | .FullTextIndex full_text_index =>
    match condition.matchArm with
    | some (.text t) => some (full_text_index.checkPayloadMatch false payloadValue t)
    | some (.phrase p) => some (full_text_index.checkPayloadMatch true payloadValue p)
    | _ => none
  | .UuidIndex _ => none
  | .UuidMapIndex _ => none
  | .NullIndex _ => none

/-! ## Value indexer (`ValueIndexer` trait, `field_index_base.rs` lines 80–129)

The trait's `remove_point` and `add_many` are implemented per engine outside
the embedded source; the state they act on is modelled from the spec. -/

/-- Modelled from the spec (§3, §4.7): the per-point forward state of a value
index — each point id maps to the multiset (list) of values it contributed.
The concrete engines (`NumericIndex`, `MapIndex`, …) are not under `src/`. -/
structure IndexerState (V : Type) where
  values : Nat → List V

theorem IndexerState.ext_values {V : Type} {s t : IndexerState V}
    (h : ∀ i, s.values i = t.values i) : s = t := by
  cases s; cases t
  simp only [IndexerState.mk.injEq]
  funext i
  exact h i

/-- Modelled from the spec (§3 invariants): `remove_point(id)` — after it,
no value of point `id` remains; other points are untouched. -/
def IndexerState.removePoint {V : Type} (s : IndexerState V) (id : Nat) :
    IndexerState V :=
  ⟨fun i => if i = id then [] else s.values i⟩

/-- Modelled from the spec (§4.7): `add_many(id, values)` — insert the value
multiset for point `id` in one call; other points are untouched. -/
def IndexerState.addMany {V : Type} (s : IndexerState V) (id : Nat)
    (vals : List V) : IndexerState V :=
  ⟨fun i => if i = id then s.values i ++ vals else s.values i⟩

/-- The flattening loop of `ValueIndexer::add_point` (`field_index_base.rs`
lines 111–123): iterate over the payload slice, flatten each top-level array
one level through `get_value` (`filter_map`), push the projection of each
non-array value when it is accepted. -/
def flattenPayloadValues {V : Type} (get_value : JsonValue → Option V)
    (payload : List JsonValue) : List V :=
  payload.foldl
    (fun flatten_values value =>
      match value with
      | .arr values => flatten_values ++ values.filterMap get_value
      | _ =>
        match get_value value with
        | some x => flatten_values ++ [x]
        | none => flatten_values)
    []

/-- `ValueIndexer::add_point` (`field_index_base.rs` lines 104–125):
pre-clear via `remove_point`, flatten the payload, then a single `add_many`
call with the whole flattened list. -/
def addPoint {V : Type} (get_value : JsonValue → Option V)
    (s : IndexerState V) (id : Nat) (payload : List JsonValue) :
    IndexerState V :=
  (s.removePoint id).addMany id (flattenPayloadValues get_value payload)

/-- `ValueIndexer::get_values` (`field_index_base.rs` lines 96–101). -/
def getValues {V : Type} (get_value : JsonValue → Option V)
    (value : JsonValue) : List V :=
  match value with
  | .arr values => values.filterMap get_value
  | _ => ((get_value value).map (fun x => [x])).getD []

/-- The elements a single payload value contributes: an array is flattened
one level, a scalar is kept as-is. -/
def elemsOf (value : JsonValue) : List JsonValue :=
  match value with
  | .arr values => values
  | v => [v]

/-- The top-level elements a payload contributes: array values flattened one
level, scalars kept as-is (used to speak about "every value rejected"). -/
def payloadElements (payload : List JsonValue) : List JsonValue :=
  payload.flatMap elemsOf

theorem getValues_eq_filterMap_elemsOf {V : Type}
    (get_value : JsonValue → Option V) (value : JsonValue) :
    getValues get_value value = (elemsOf value).filterMap get_value := by
  cases value <;>
    simp only [getValues, elemsOf, List.filterMap_cons, List.filterMap_nil] <;>
    first
      | rfl
      | (cases h : get_value _ <;> simp [h])

theorem mem_payloadElements {payload : List JsonValue} {v x : JsonValue}
    (hv : v ∈ payload) (hx : x ∈ elemsOf v) : x ∈ payloadElements payload := by
  simp only [payloadElements, List.mem_flatMap]
  exact ⟨v, hv, hx⟩

theorem flattenPayloadValues_go {V : Type} (get_value : JsonValue → Option V)
    (payload : List JsonValue) (acc : List V) :
    payload.foldl
      (fun flatten_values value =>
        match value with
        | .arr values => flatten_values ++ values.filterMap get_value
        | _ =>
          match get_value value with
          | some x => flatten_values ++ [x]
          | none => flatten_values)
      acc = acc ++ payload.flatMap (getValues get_value) := by
  induction payload generalizing acc with
  | nil => simp
  | cons v rest ih =>
    cases v <;>
      simp only [List.foldl_cons, List.flatMap_cons, ih, getValues] <;>
      try simp [List.append_assoc]
    case bool b => cases h : get_value (JsonValue.bool b) <;> simp [h]
    case null => cases h : get_value JsonValue.null <;> simp [h]
    case num n => cases h : get_value (JsonValue.num n) <;> simp [h]
    case str s => cases h : get_value (JsonValue.str s) <;> simp [h]
    case obj fields => cases h : get_value (JsonValue.obj fields) <;> simp [h]

theorem flattenPayloadValues_eq_flatMap {V : Type}
    (get_value : JsonValue → Option V) (payload : List JsonValue) :
    flattenPayloadValues get_value payload =
      payload.flatMap (getValues get_value) := by
  simpa using flattenPayloadValues_go get_value payload []

/-- C2: re-adding a point overwrites its previous values: for any point id
and payload lists `v`, `v'`, `add_point(id, v)` followed by
`add_point(id, v')` yields the same index state as `add_point(id, v')`
alone, because `add_point` pre-clears with `remove_point(id)`. -/
theorem addPoint_addPoint_eq_addPoint {V : Type}
    (get_value : JsonValue → Option V) (s : IndexerState V) (id : Nat)
    (v v' : List JsonValue) :
    addPoint get_value (addPoint get_value s id v) id v' =
      addPoint get_value s id v' := by
  apply IndexerState.ext_values
  intro i
  simp only [addPoint, IndexerState.addMany, IndexerState.removePoint]
  by_cases h : i = id <;> simp [h]

/-- C3: `add_point` flattens each top-level array one level, projects every
element (and every non-array scalar) through `get_value` dropping rejected
elements, and hands the whole resulting list to `add_many` in a single call
on the pre-cleared state; when every payload element is rejected, that list
is empty and the point ends up unindexed. -/
theorem addPoint_flattens_and_addMany_once {V : Type}
    (get_value : JsonValue → Option V) (s : IndexerState V) (id : Nat)
    (payload : List JsonValue) :
    addPoint get_value s id payload =
      (s.removePoint id).addMany id
        (payload.flatMap fun value =>
          match value with
          | .arr values => values.filterMap get_value
          | v => ((get_value v).map (fun x => [x])).getD []) ∧
    ((∀ v ∈ payloadElements payload, get_value v = none) →
      flattenPayloadValues get_value payload = [] ∧
        (addPoint get_value s id payload).values id = []) := by
  constructor
  · unfold addPoint
    rw [flattenPayloadValues_eq_flatMap]
    have hfun : getValues get_value =
        (fun value =>
          match value with
          | JsonValue.arr values => values.filterMap get_value
          | v => ((get_value v).map (fun x => [x])).getD []) := by
      funext value
      cases value <;> rfl
    rw [hfun]
  · intro hrej
    have hempty : flattenPayloadValues get_value payload = [] := by
      rw [flattenPayloadValues_eq_flatMap, List.flatMap_eq_nil_iff]
      intro v hv
      rw [getValues_eq_filterMap_elemsOf, List.filterMap_eq_nil_iff]
      intro x hx
      exact hrej x (mem_payloadElements hv hx)
    refine ⟨hempty, ?_⟩
    simp [addPoint, IndexerState.addMany, IndexerState.removePoint, hempty]

/-- C3 witness: concrete evaluation with a projection rejecting everything
on payload `[[null], true]`: every hypothesis discharged, the point ends up
unindexed. -/
theorem addPoint_flattens_witness :
    flattenPayloadValues (V := Nat) (fun _ => none)
        [JsonValue.arr [JsonValue.null], JsonValue.bool true] = [] ∧
      (addPoint (V := Nat) (fun _ => none) ⟨fun _ => [0]⟩ 5
          [JsonValue.arr [JsonValue.null], JsonValue.bool true]).values 5 = [] :=
  (addPoint_flattens_and_addMany_once (fun _ => none) ⟨fun _ => [0]⟩ 5
      [JsonValue.arr [JsonValue.null], JsonValue.bool true]).2
    (by intro v hv; rfl)

/-- C1: `special_check_condition` returns `Some` exactly on a full-text index
whose condition carries a text or phrase match arm; every other variant and
every other condition shape yields `None`. -/
theorem special_check_condition_some_iff_fulltext_text_or_phrase
    (idx : FieldIndex) (condition : FieldCondition) (payloadValue : JsonValue) :
    (idx.special_check_condition condition payloadValue).isSome = true ↔
      ((∃ m, idx = FieldIndex.FullTextIndex m) ∧
        ((∃ t, condition.matchArm = some (MatchArm.text t)) ∨
          (∃ p, condition.matchArm = some (MatchArm.phrase p)))) := by
  cases idx <;>
    simp only [FieldIndex.special_check_condition, Option.isSome_none] <;>
    try simp
  case FullTextIndex m =>
    cases h : condition.matchArm with
    | none => simp [h]
    | some arm => cases arm <;> simp [h]

/-! ## Builders (`FieldIndexBuilder`, `field_index_base.rs` lines 584–757) -/

/-- `OperationError` from `segment::common::operation_error`, abstracted to
its description (only propagation matters here). -/
structure OperationError where
  description : String

/-- `FieldIndexBuilder` (`field_index_base.rs` lines 584–621): one arm per
(index variant × storage backend) pair, including the `rocksdb`-feature
arms.  Each arm carries the outcome of its inner builder's `finalize`
(the inner builders live outside the embedded source). -/
inductive FieldIndexBuilder where
  | IntIndex (inner : Except OperationError NumericIndexModel)
  | IntMmapIndex (inner : Except OperationError NumericIndexModel)
  | IntGridstoreIndex (inner : Except OperationError NumericIndexModel)
  | DatetimeIndex (inner : Except OperationError NumericIndexModel)
  | DatetimeMmapIndex (inner : Except OperationError NumericIndexModel)
  | DatetimeGridstoreIndex (inner : Except OperationError NumericIndexModel)
  | IntMapIndex (inner : Except OperationError MapIndexModel)
  | IntMapMmapIndex (inner : Except OperationError MapIndexModel)
  | IntMapGridstoreIndex (inner : Except OperationError MapIndexModel)
  | KeywordIndex (inner : Except OperationError MapIndexModel)
  | KeywordMmapIndex (inner : Except OperationError MapIndexModel)
  | KeywordGridstoreIndex (inner : Except OperationError MapIndexModel)
  | FloatIndex (inner : Except OperationError NumericIndexModel)
  | FloatMmapIndex (inner : Except OperationError NumericIndexModel)
  | FloatGridstoreIndex (inner : Except OperationError NumericIndexModel)
  | GeoIndex (inner : Except OperationError GeoIndexModel)
  | GeoMmapIndex (inner : Except OperationError GeoIndexModel)
  | GeoGridstoreIndex (inner : Except OperationError GeoIndexModel)
  | FullTextIndex (inner : Except OperationError FullTextIndexModel)
  | FullTextMmapIndex (inner : Except OperationError FullTextIndexModel)
  | FullTextGridstoreIndex (inner : Except OperationError FullTextIndexModel)
  | BoolIndex (inner : Except OperationError BoolIndexModel)
  | BoolMmapIndex (inner : Except OperationError BoolIndexModel)
  | UuidIndex (inner : Except OperationError MapIndexModel)
  | UuidMmapIndex (inner : Except OperationError MapIndexModel)
  | UuidGridstoreIndex (inner : Except OperationError MapIndexModel)
  | NullIndex (inner : Except OperationError NullIndexModel)

/-- `FieldIndexBuilderTrait::finalize` for `FieldIndexBuilder`
(`field_index_base.rs` lines 717–756): wrap the inner builder's finalized
engine in the corresponding `FieldIndex` variant; note every `Uuid*` builder
arm wraps in `FieldIndex::UuidMapIndex`. -/
def FieldIndexBuilder.finalize :
    FieldIndexBuilder → Except OperationError FieldIndex
  | .IntIndex inner => inner.map FieldIndex.IntIndex
  | .IntMmapIndex inner => inner.map FieldIndex.IntIndex
  | .IntGridstoreIndex inner => inner.map FieldIndex.IntIndex
  | .DatetimeIndex inner => inner.map FieldIndex.DatetimeIndex
  | .DatetimeMmapIndex inner => inner.map FieldIndex.DatetimeIndex
  | .DatetimeGridstoreIndex inner => inner.map FieldIndex.DatetimeIndex
  | .IntMapIndex inner => inner.map FieldIndex.IntMapIndex
  | .IntMapMmapIndex inner => inner.map FieldIndex.IntMapIndex
  | .IntMapGridstoreIndex inner => inner.map FieldIndex.IntMapIndex
  | .KeywordIndex inner => inner.map FieldIndex.KeywordIndex
  | .KeywordMmapIndex inner => inner.map FieldIndex.KeywordIndex
  | .KeywordGridstoreIndex inner => inner.map FieldIndex.KeywordIndex
  | .FloatIndex inner => inner.map FieldIndex.FloatIndex
  | .FloatMmapIndex inner => inner.map FieldIndex.FloatIndex
  | .FloatGridstoreIndex inner => inner.map FieldIndex.FloatIndex
  | .GeoIndex inner => inner.map FieldIndex.GeoIndex
  | .GeoMmapIndex inner => inner.map FieldIndex.GeoIndex
  | .GeoGridstoreIndex inner => inner.map FieldIndex.GeoIndex
  | .FullTextIndex inner => inner.map FieldIndex.FullTextIndex
  | .FullTextMmapIndex inner => inner.map FieldIndex.FullTextIndex
  | .FullTextGridstoreIndex inner => inner.map FieldIndex.FullTextIndex
  | .BoolIndex inner => inner.map FieldIndex.BoolIndex
  | .BoolMmapIndex inner => inner.map FieldIndex.BoolIndex
  | .UuidIndex inner => inner.map FieldIndex.UuidMapIndex
  | .UuidMmapIndex inner => inner.map FieldIndex.UuidMapIndex
  | .UuidGridstoreIndex inner => inner.map FieldIndex.UuidMapIndex
  | .NullIndex inner => inner.map FieldIndex.NullIndex

/-- The output variant each builder arm is specified to produce, following
the words of the amended claim (Int builders yield `IntIndex`, …, Uuid
builders yield `UuidMapIndex`, the Null builder yields `NullIndex`). -/
def specBuilderOutputKind : FieldIndexBuilder → FieldIndexKind
  | .IntIndex _ | .IntMmapIndex _ | .IntGridstoreIndex _ =>
    FieldIndexKind.IntIndex
  | .DatetimeIndex _ | .DatetimeMmapIndex _ | .DatetimeGridstoreIndex _ =>
    FieldIndexKind.DatetimeIndex
  | .IntMapIndex _ | .IntMapMmapIndex _ | .IntMapGridstoreIndex _ =>
    FieldIndexKind.IntMapIndex
  | .KeywordIndex _ | .KeywordMmapIndex _ | .KeywordGridstoreIndex _ =>
    FieldIndexKind.KeywordIndex
  | .FloatIndex _ | .FloatMmapIndex _ | .FloatGridstoreIndex _ =>
    FieldIndexKind.FloatIndex
  | .GeoIndex _ | .GeoMmapIndex _ | .GeoGridstoreIndex _ =>
    FieldIndexKind.GeoIndex
  | .FullTextIndex _ | .FullTextMmapIndex _ | .FullTextGridstoreIndex _ =>
    FieldIndexKind.FullTextIndex
  | .BoolIndex _ | .BoolMmapIndex _ => FieldIndexKind.BoolIndex
  | .UuidIndex _ | .UuidMmapIndex _ | .UuidGridstoreIndex _ =>
    FieldIndexKind.UuidMapIndex
  | .NullIndex _ => FieldIndexKind.NullIndex

/-- A trivial concrete map-index engine model, used as a finalized inner
builder result in concrete instantiations. -/
def mapIndexModel0 : MapIndexModel :=
  { postingSize := fun _ => 0
    postingList := fun _ => []
    exceptPoints := fun _ => []
    pointCount := 0 }

/-- A trivial concrete null-index engine model. -/
def nullIndexModel0 : NullIndexModel :=
  { nullCount := 0
    emptyCount := 0
    nullPoints := []
    emptyPoints := []
    notNullPoints := []
    notEmptyPoints := []
    pointCount := 0 }

/-- C4 counterexample: finalizing a Uuid builder (mmap backend, inner
builder succeeding) yields the `UuidMapIndex` variant, not the `UuidIndex`
variant the claim names. -/
theorem finalize_uuid_builder_yields_uuid_map_index :
    (FieldIndexBuilder.finalize
        (FieldIndexBuilder.UuidMmapIndex (Except.ok mapIndexModel0))).map
        FieldIndex.kind = Except.ok FieldIndexKind.UuidMapIndex ∧
      FieldIndexKind.UuidMapIndex ≠ FieldIndexKind.UuidIndex := by
  exact ⟨rfl, by decide⟩

/-- C4 (amended): whenever `finalize` succeeds, the produced `FieldIndex`
variant is the one paired with the builder arm: Int → IntIndex,
Datetime → DatetimeIndex, IntMap → IntMapIndex, Keyword → KeywordIndex,
Float → FloatIndex, Geo → GeoIndex, FullText → FullTextIndex,
Bool → BoolIndex, Uuid → UuidMapIndex (no builder produces `UuidIndex`),
Null → NullIndex. -/
theorem finalize_kind_matches_builder (b : FieldIndexBuilder)
    (idx : FieldIndex) (h : FieldIndexBuilder.finalize b = Except.ok idx) :
    idx.kind = specBuilderOutputKind b := by
  cases b <;>
    rename_i inner <;>
    cases inner <;>
    simp only [FieldIndexBuilder.finalize, Except.map, Except.ok.injEq] at h <;>
    first
      | (subst h; rfl)
      | cases h

/-- C4 witness: concrete run of the amended theorem on the Null builder. -/
theorem finalize_kind_matches_builder_witness :
    (FieldIndex.NullIndex nullIndexModel0).kind =
      specBuilderOutputKind
        (FieldIndexBuilder.NullIndex (Except.ok nullIndexModel0)) :=
  finalize_kind_matches_builder
    (FieldIndexBuilder.NullIndex (Except.ok nullIndexModel0))
    (FieldIndex.NullIndex nullIndexModel0) rfl

/-! ## Query routing: `filter` and `estimate_cardinality`

The facade (`field_index_base.rs` lines 266–281) dispatches to each engine's
`PayloadFieldIndex` implementation.  The engines are not under `src/`; their
routing and estimation behaviour is modelled from the spec (§3 predicate
table, §4.1–§4.6).  Both entry points return `Option` — the Rust signatures
(lines 55–69) have no error channel at all. -/

/-- The effective closed lower key bound of a range (`gt` is strict, so the
closed bound is `gt + 1`; both given, the tighter one wins). -/
def NumRange.lowerBound (r : NumRange) : Option Int :=
  match r.gt, r.gte with
  | none, none => none
  | some g, none => some (g + 1)
  | none, some ge => some ge
  | some g, some ge => some (Max.max (g + 1) ge)

/-- The effective closed upper key bound of a range. -/
def NumRange.upperBound (r : NumRange) : Option Int :=
  match r.lt, r.lte with
  | none, none => none
  | some l, none => some (l - 1)
  | none, some le => some le
  | some l, some le => some (Min.min (l - 1) le)

/-- A histogram bucket `[lo, hi]` lies entirely inside the query range. -/
def bucketFull (r : NumRange) (b : Int × Int × Nat) : Bool :=
  (match r.lowerBound with
   | none => true
   | some lb => decide (lb ≤ b.1)) &&
  (match r.upperBound with
   | none => true
   | some ub => decide (b.2.1 ≤ ub))

/-- A histogram bucket `[lo, hi]` is disjoint from the query range. -/
def bucketDisjoint (r : NumRange) (b : Int × Int × Nat) : Bool :=
  (match r.lowerBound with
   | none => false
   | some lb => decide (b.2.1 < lb)) ||
  (match r.upperBound with
   | none => false
   | some ub => decide (ub < b.1))

/-- A histogram bucket partially overlaps the query range. -/
def bucketPart (r : NumRange) (b : Int × Int × Nat) : Bool :=
  !bucketFull r b && !bucketDisjoint r b

/-- Modelled from the spec (§4.2): the numeric range estimate — `min`
counts fully covered buckets, `max` additionally counts partially covered
buckets, `expected` adds the partial buckets at mid-count. -/
def numericEstimate (m : NumericIndexModel) (r : NumRange) :
    CardinalityEstimation :=
  let fullSum := ((m.buckets.filter (bucketFull r)).map (fun b => b.2.2)).sum
  let partSum := ((m.buckets.filter (bucketPart r)).map (fun b => b.2.2)).sum
  { min := fullSum, exp := fullSum + partSum / 2, max := fullSum + partSum }

/-- The product `Π (1 - sᵢ/n)` over posting sizes: the probability that a
uniform point misses every posting, under independence. -/
def complementProd (sizes : List Nat) (n : Nat) : ℚ :=
  (sizes.map (fun (s : Nat) => 1 - (s : ℚ) / (n : ℚ))).prod

/-- The product `Π (sᵢ/n)` over posting sizes: the probability that a
uniform point hits every posting, under independence. -/
def fracProd (sizes : List Nat) (n : Nat) : ℚ :=
  (sizes.map (fun (s : Nat) => (s : ℚ) / (n : ℚ))).prod

/-- Modelled from the spec (§4.3): the `any-of{v1..vk}` estimate —
`min = max |posting(vi)|`, `max = min(Σ|posting(vi)|, N)`, and `expected`
from inclusion-exclusion under uniform independence:
`N·(1 - Π(1 - |posting(vi)|/N))`, floored to a point count. -/
def anyOfEstimate (sizes : List Nat) (n : Nat) : CardinalityEstimation :=
  { min := sizes.foldr Nat.max 0
    exp := (⌊(n : ℚ) * (1 - complementProd sizes n)⌋).toNat
    max := Nat.min sizes.sum n }

/-- Modelled from the spec (§4.3): the map index estimator.  Equality is
answered exactly from the posting size; `except` is the complement of the
`any-of` estimate.  Any other match shape is not native: `None`. -/
def mapEstimate (m : MapIndexModel) (arm : Option MatchArm) :
    Option CardinalityEstimation :=
  match arm with
  | some (.value v) =>
    let s := m.postingSize v
    some { min := s, exp := s, max := s }
  | some (.anyOf vs) =>
    some (anyOfEstimate (vs.map m.postingSize) m.pointCount)
  | some (.exceptOf vs) =>
    let t := anyOfEstimate (vs.map m.postingSize) m.pointCount
    some { min := m.pointCount - t.max
           exp := m.pointCount - t.exp
           max := m.pointCount - t.min }
  | _ => none

/-- Modelled from the spec (§4.4): the full-text estimate for a tokenized
query — `min = 0`, `max = min(|shortest posting|, N)`,
`expected = N·Π(|posting(ti)|/N)` floored; an empty token list matches all
indexed points. -/
def fullTextEstimate (m : FullTextIndexModel) (query : String) :
    CardinalityEstimation :=
  let sizes := (m.tokenize query).map m.postingSize
  { min := 0
    exp := (⌊(m.pointCount : ℚ) * fracProd sizes m.pointCount⌋).toNat
    max := sizes.foldr Nat.min m.pointCount }

/-- Modelled from the spec (§4.5): geo estimation uses cell occupancy
without verification, clamped to the indexed point count; the unverified
lower bound is zero. -/
def geoEstimate (m : GeoIndexModel) (q : GeoQuery) : CardinalityEstimation :=
  { min := 0
    exp := Nat.min (m.occupancy q) m.pointCount
    max := Nat.min (m.occupancy q) m.pointCount }

/-- Modelled from the spec (§4.6): the bool index answers equality exactly
from its two bitmaps. -/
def boolEstimate (m : BoolIndexModel) (b : Bool) : CardinalityEstimation :=
  let s := if b then m.trueCount else m.falseCount
  { min := s, exp := s, max := s }

/-- Modelled from the spec (§4.6): the null index answers `is-null` /
`is-empty` exactly from its bitmaps (negated flags take the complement). -/
def nullEstimate (m : NullIndexModel) (c : FieldCondition) :
    Option CardinalityEstimation :=
  match c.isNullArm with
  | some flag =>
    let s := if flag then m.nullCount else m.pointCount - m.nullCount
    some { min := s, exp := s, max := s }
  | none =>
    match c.isEmptyArm with
    | some flag =>
      let s := if flag then m.emptyCount else m.pointCount - m.emptyCount
      some { min := s, exp := s, max := s }
    | none => none

/-- `FieldIndex::estimate_cardinality` (`field_index_base.rs` lines
274–281), with the per-engine estimators modelled from the spec: each
variant answers only its native predicate shape and returns `None`
otherwise. -/
def FieldIndex.estimate_cardinality (idx : FieldIndex)
    (condition : FieldCondition) : Option CardinalityEstimation :=
  match idx with
  | .IntIndex m => condition.range.map (numericEstimate m)
  | .DatetimeIndex m => condition.range.map (numericEstimate m)
  | .FloatIndex m => condition.range.map (numericEstimate m)
  | .UuidIndex m => condition.range.map (numericEstimate m)
  | .IntMapIndex m => mapEstimate m condition.matchArm
  | .KeywordIndex m => mapEstimate m condition.matchArm
  | .UuidMapIndex m => mapEstimate m condition.matchArm
  | .GeoIndex m => condition.geo.map (geoEstimate m)
  | .FullTextIndex m =>
    match condition.matchArm with
    | some (.text t) => some (fullTextEstimate m t)
    | some (.phrase p) => some (fullTextEstimate m p)
    | _ => none
  | .BoolIndex m =>
    match condition.matchArm with
    | some (.value (.bool b)) => some (boolEstimate m b)
    | _ => none
  | .NullIndex m => nullEstimate m condition

/-- Modelled from the spec (§4.3): the map index filter — equality reads
one posting, `any-of` unions the postings, `except` takes the stored
complement. -/
def mapFilter (m : MapIndexModel) (arm : Option MatchArm) :
    Option (List Nat) :=
  match arm with
  | some (.value v) => some (m.postingList v)
  | some (.anyOf vs) => some ((vs.flatMap m.postingList).dedup)
  | some (.exceptOf vs) => some (m.exceptPoints vs)
  | _ => none

/-- `FieldIndex::filter` (`field_index_base.rs` lines 266–272), with the
per-engine filters modelled from the spec; same routing as
`estimate_cardinality`, returning the matching point ids. -/
def FieldIndex.filter (idx : FieldIndex) (condition : FieldCondition) :
    Option (List Nat) :=
  match idx with
  | .IntIndex m => condition.range.map m.rangePoints
  | .DatetimeIndex m => condition.range.map m.rangePoints
  | .FloatIndex m => condition.range.map m.rangePoints
  | .UuidIndex m => condition.range.map m.rangePoints
  | .IntMapIndex m => mapFilter m condition.matchArm
  | .KeywordIndex m => mapFilter m condition.matchArm
  | .UuidMapIndex m => mapFilter m condition.matchArm
  | .GeoIndex m => condition.geo.map m.geoPoints
  | .FullTextIndex m =>
    match condition.matchArm with
    | some (.text t) => some (m.searchText t)
    | some (.phrase p) => some (m.searchPhrase p)
    | _ => none
  | .BoolIndex m =>
    match condition.matchArm with
    | some (.value (.bool b)) => some (if b then m.truePoints else m.falsePoints)
    | _ => none
  | .NullIndex m =>
    match condition.isNullArm with
    | some flag => some (if flag then m.nullPoints else m.notNullPoints)
    | none =>
      match condition.isEmptyArm with
      | some flag => some (if flag then m.emptyPoints else m.notEmptyPoints)
      | none => none

/-- Whether a condition's predicate shape is native to an index variant:
the spec's predicate capability table (§3), stated independently of the
routing code above. -/
def shapeNative (idx : FieldIndex) (c : FieldCondition) : Bool :=
  match idx with
  | .IntIndex _ => c.range.isSome
  | .DatetimeIndex _ => c.range.isSome
  | .FloatIndex _ => c.range.isSome
  | .UuidIndex _ => c.range.isSome
  | .IntMapIndex _ | .KeywordIndex _ | .UuidMapIndex _ =>
    match c.matchArm with
    | some (.value _) | some (.anyOf _) | some (.exceptOf _) => true
    | _ => false
  | .GeoIndex _ => c.geo.isSome
  | .FullTextIndex _ =>
    match c.matchArm with
    | some (.text _) | some (.phrase _) => true
    | _ => false
  | .BoolIndex _ =>
    match c.matchArm with
    | some (.value (.bool _)) => true
    | _ => false
  | .NullIndex _ => c.isNullArm.isSome || c.isEmptyArm.isSome

/-- `FieldIndex::count_indexed_points` (`field_index_base.rs` lines
250–252): the number of points with at least one indexed value. -/
def FieldIndex.count_indexed_points : FieldIndex → Nat
  | .IntIndex m => m.pointCount
  | .DatetimeIndex m => m.pointCount
  | .IntMapIndex m => m.pointCount
  | .KeywordIndex m => m.pointCount
  | .FloatIndex m => m.pointCount
  | .GeoIndex m => m.pointCount
  | .FullTextIndex m => m.pointCount
  | .BoolIndex m => m.pointCount
  | .UuidIndex m => m.pointCount
  | .UuidMapIndex m => m.pointCount
  | .NullIndex m => m.pointCount

/-- Well-formedness of an engine model, from the spec's invariants (§3):
no posting, bitmap or histogram can reference more points than are
indexed. -/
def FieldIndex.WF : FieldIndex → Prop
  | .IntIndex m => (m.buckets.map (fun b => b.2.2)).sum ≤ m.pointCount
  | .DatetimeIndex m => (m.buckets.map (fun b => b.2.2)).sum ≤ m.pointCount
  | .FloatIndex m => (m.buckets.map (fun b => b.2.2)).sum ≤ m.pointCount
  | .UuidIndex m => (m.buckets.map (fun b => b.2.2)).sum ≤ m.pointCount
  | .IntMapIndex m => ∀ v, m.postingSize v ≤ m.pointCount
  | .KeywordIndex m => ∀ v, m.postingSize v ≤ m.pointCount
  | .UuidMapIndex m => ∀ v, m.postingSize v ≤ m.pointCount
  | .GeoIndex _ => True
  | .FullTextIndex m => ∀ t, m.postingSize t ≤ m.pointCount
  | .BoolIndex m => m.trueCount ≤ m.pointCount ∧ m.falseCount ≤ m.pointCount
  | .NullIndex m => m.nullCount ≤ m.pointCount ∧ m.emptyCount ≤ m.pointCount

/-- A trivial concrete numeric-index engine model. -/
def numericIndexModel0 : NumericIndexModel :=
  { buckets := [], pointCount := 0, rangePoints := fun _ => [] }

/-- The all-empty field condition. -/
def emptyCondition : FieldCondition :=
  { matchArm := none, range := none, geo := none
    isNullArm := none, isEmptyArm := none }

/-- C5: when a condition's predicate shape is not native to the index
variant, both `filter` and `estimate_cardinality` answer `None`; the shape
mismatch is reported through the `Option`, never through an error channel
(the Rust signatures return bare `Option`, with no `Result` at all). -/
theorem filter_and_estimate_none_of_shape_not_native
    (idx : FieldIndex) (c : FieldCondition)
    (h : shapeNative idx c = false) :
    idx.filter c = none ∧ idx.estimate_cardinality c = none := by
  cases idx with
  | IntIndex m =>
    cases hr : c.range <;>
      simp_all [FieldIndex.filter, FieldIndex.estimate_cardinality, shapeNative]
  | DatetimeIndex m =>
    cases hr : c.range <;>
      simp_all [FieldIndex.filter, FieldIndex.estimate_cardinality, shapeNative]
  | FloatIndex m =>
    cases hr : c.range <;>
      simp_all [FieldIndex.filter, FieldIndex.estimate_cardinality, shapeNative]
  | UuidIndex m =>
    cases hr : c.range <;>
      simp_all [FieldIndex.filter, FieldIndex.estimate_cardinality, shapeNative]
  | GeoIndex m =>
    cases hg : c.geo <;>
      simp_all [FieldIndex.filter, FieldIndex.estimate_cardinality, shapeNative]
  | IntMapIndex m =>
    cases ha : c.matchArm with
    | none =>
      simp_all [FieldIndex.filter, FieldIndex.estimate_cardinality,
        mapFilter, mapEstimate]
    | some arm =>
      cases arm <;>
        simp_all [FieldIndex.filter, FieldIndex.estimate_cardinality,
          shapeNative, mapFilter, mapEstimate]
  | KeywordIndex m =>
    cases ha : c.matchArm with
    | none =>
      simp_all [FieldIndex.filter, FieldIndex.estimate_cardinality,
        mapFilter, mapEstimate]
    | some arm =>
      cases arm <;>
        simp_all [FieldIndex.filter, FieldIndex.estimate_cardinality,
          shapeNative, mapFilter, mapEstimate]
  | UuidMapIndex m =>
    cases ha : c.matchArm with
    | none =>
      simp_all [FieldIndex.filter, FieldIndex.estimate_cardinality,
        mapFilter, mapEstimate]
    | some arm =>
      cases arm <;>
        simp_all [FieldIndex.filter, FieldIndex.estimate_cardinality,
          shapeNative, mapFilter, mapEstimate]
  | FullTextIndex m =>
    cases ha : c.matchArm with
    | none =>
      simp_all [FieldIndex.filter, FieldIndex.estimate_cardinality]
    | some arm =>
      cases arm <;>
        simp_all [FieldIndex.filter, FieldIndex.estimate_cardinality,
          shapeNative]
  | BoolIndex m =>
    cases ha : c.matchArm with
    | none =>
      simp_all [FieldIndex.filter, FieldIndex.estimate_cardinality]
    | some arm =>
      cases arm with
      | value v =>
        cases v <;>
          simp_all [FieldIndex.filter, FieldIndex.estimate_cardinality,
            shapeNative]
      | anyOf vs =>
        simp_all [FieldIndex.filter, FieldIndex.estimate_cardinality]
      | exceptOf vs =>
        simp_all [FieldIndex.filter, FieldIndex.estimate_cardinality]
      | text t =>
        simp_all [FieldIndex.filter, FieldIndex.estimate_cardinality]
      | phrase p =>
        simp_all [FieldIndex.filter, FieldIndex.estimate_cardinality]
  | NullIndex m =>
    cases hn : c.isNullArm <;> cases he : c.isEmptyArm <;>
      simp_all [FieldIndex.filter, FieldIndex.estimate_cardinality,
        shapeNative, nullEstimate]

/-- C5 witness: an integer index with the shapeless (all-`None`) condition:
the hypothesis holds and both entry points answer `None`. -/
theorem filter_and_estimate_none_witness :
    FieldIndex.filter (FieldIndex.IntIndex numericIndexModel0)
        emptyCondition = none ∧
      FieldIndex.estimate_cardinality (FieldIndex.IntIndex numericIndexModel0)
        emptyCondition = none :=
  filter_and_estimate_none_of_shape_not_native
    (FieldIndex.IntIndex numericIndexModel0) emptyCondition rfl

/-! ## Arithmetic facts behind the cardinality estimators -/

theorem natFrac_nonneg (s n : Nat) : 0 ≤ (s : ℚ) / (n : ℚ) := by positivity

theorem natFrac_le_one {s n : Nat} (h : s ≤ n) : (s : ℚ) / (n : ℚ) ≤ 1 := by
  rcases Nat.eq_zero_or_pos n with h0 | hpos
  · subst h0
    have : s = 0 := Nat.le_zero.mp h
    simp [this]
  · rw [div_le_one (by exact_mod_cast hpos)]
    exact_mod_cast h

theorem complementProd_nonneg {sizes : List Nat} {n : Nat}
    (h : ∀ s ∈ sizes, s ≤ n) : 0 ≤ complementProd sizes n := by
  induction sizes with
  | nil => simp [complementProd]
  | cons a rest ih =>
    have ha : (a : ℚ) / (n : ℚ) ≤ 1 := natFrac_le_one (h a (by simp))
    have hr : 0 ≤ complementProd rest n := ih fun s hs => h s (by simp [hs])
    simp only [complementProd, List.map_cons, List.prod_cons]
    exact mul_nonneg (by linarith) hr

theorem complementProd_le_one {sizes : List Nat} {n : Nat}
    (h : ∀ s ∈ sizes, s ≤ n) : complementProd sizes n ≤ 1 := by
  induction sizes with
  | nil => simp [complementProd]
  | cons a rest ih =>
    have ha : 0 ≤ (a : ℚ) / (n : ℚ) := natFrac_nonneg a n
    have ha1 : (a : ℚ) / (n : ℚ) ≤ 1 := natFrac_le_one (h a (by simp))
    have hr0 : 0 ≤ complementProd rest n :=
      complementProd_nonneg fun s hs => h s (by simp [hs])
    have hr1 : complementProd rest n ≤ 1 := ih fun s hs => h s (by simp [hs])
    simp only [complementProd, List.map_cons, List.prod_cons]
    calc (1 - (a : ℚ) / (n : ℚ)) * complementProd rest n
        ≤ 1 * complementProd rest n := by
          exact mul_le_mul_of_nonneg_right (by linarith) hr0
      _ ≤ 1 := by simpa using hr1

theorem complementProd_le_one_sub {sizes : List Nat} {n : Nat} {j : Nat}
    (h : ∀ s ∈ sizes, s ≤ n) (hj : j ∈ sizes) :
    complementProd sizes n ≤ 1 - (j : ℚ) / (n : ℚ) := by
  induction sizes with
  | nil => cases hj
  | cons a rest ih =>
    have hr0 : 0 ≤ complementProd rest n :=
      complementProd_nonneg fun s hs => h s (by simp [hs])
    have hr1 : complementProd rest n ≤ 1 :=
      complementProd_le_one fun s hs => h s (by simp [hs])
    have ha : 0 ≤ (a : ℚ) / (n : ℚ) := natFrac_nonneg a n
    have ha1 : (a : ℚ) / (n : ℚ) ≤ 1 := natFrac_le_one (h a (by simp))
    rcases List.mem_cons.mp hj with hja | hjr
    · subst hja
      simp only [complementProd, List.map_cons, List.prod_cons]
      calc (1 - (j : ℚ) / (n : ℚ)) * complementProd rest n
          ≤ (1 - (j : ℚ) / (n : ℚ)) * 1 := by
            exact mul_le_mul_of_nonneg_left hr1 (by linarith)
        _ = 1 - (j : ℚ) / (n : ℚ) := by ring
    · have hIH : complementProd rest n ≤ 1 - (j : ℚ) / (n : ℚ) :=
        ih (fun s hs => h s (by simp [hs])) hjr
      simp only [complementProd, List.map_cons, List.prod_cons]
      calc (1 - (a : ℚ) / (n : ℚ)) * complementProd rest n
          ≤ 1 * complementProd rest n := by
            exact mul_le_mul_of_nonneg_right (by linarith) hr0
        _ ≤ 1 - (j : ℚ) / (n : ℚ) := by simpa using hIH

theorem one_sub_complementProd_le_sum {sizes : List Nat} {n : Nat}
    (h : ∀ s ∈ sizes, s ≤ n) :
    1 - complementProd sizes n ≤
      (sizes.map (fun (s : Nat) => (s : ℚ) / (n : ℚ))).sum := by
  induction sizes with
  | nil => simp [complementProd]
  | cons a rest ih =>
    have hr0 : 0 ≤ complementProd rest n :=
      complementProd_nonneg fun s hs => h s (by simp [hs])
    have hr1 : complementProd rest n ≤ 1 :=
      complementProd_le_one fun s hs => h s (by simp [hs])
    have ha : 0 ≤ (a : ℚ) / (n : ℚ) := natFrac_nonneg a n
    have hIH : 1 - complementProd rest n ≤
        (rest.map (fun (s : Nat) => (s : ℚ) / (n : ℚ))).sum :=
      ih fun s hs => h s (by simp [hs])
    have haP : (a : ℚ) / (n : ℚ) * complementProd rest n ≤ (a : ℚ) / (n : ℚ) :=
      mul_le_of_le_one_right ha hr1
    have key : 1 - (1 - (a : ℚ) / (n : ℚ)) * complementProd rest n ≤
        (a : ℚ) / (n : ℚ) + (rest.map (fun (s : Nat) => (s : ℚ) / (n : ℚ))).sum := by
      nlinarith [hIH, haP]
    simpa [complementProd, List.map_cons, List.prod_cons, List.sum_cons]
      using key

theorem fracProd_nonneg (sizes : List Nat) (n : Nat) : 0 ≤ fracProd sizes n := by
  induction sizes with
  | nil => simp [fracProd]
  | cons a rest ih =>
    simp only [fracProd, List.map_cons, List.prod_cons]
    exact mul_nonneg (natFrac_nonneg a n) ih

theorem fracProd_le_one {sizes : List Nat} {n : Nat}
    (h : ∀ s ∈ sizes, s ≤ n) : fracProd sizes n ≤ 1 := by
  induction sizes with
  | nil => simp [fracProd]
  | cons a rest ih =>
    have hr0 : 0 ≤ fracProd rest n := fracProd_nonneg rest n
    have hr1 : fracProd rest n ≤ 1 := ih fun s hs => h s (by simp [hs])
    have ha1 : (a : ℚ) / (n : ℚ) ≤ 1 := natFrac_le_one (h a (by simp))
    simp only [fracProd, List.map_cons, List.prod_cons]
    calc (a : ℚ) / (n : ℚ) * fracProd rest n
        ≤ 1 * fracProd rest n := mul_le_mul_of_nonneg_right ha1 hr0
      _ ≤ 1 := by simpa using hr1

theorem fracProd_le_mem {sizes : List Nat} {n : Nat} {j : Nat}
    (h : ∀ s ∈ sizes, s ≤ n) (hj : j ∈ sizes) :
    fracProd sizes n ≤ (j : ℚ) / (n : ℚ) := by
  induction sizes with
  | nil => cases hj
  | cons a rest ih =>
    have hr0 : 0 ≤ fracProd rest n := fracProd_nonneg rest n
    have hr1 : fracProd rest n ≤ 1 :=
      fracProd_le_one fun s hs => h s (by simp [hs])
    have ha : 0 ≤ (a : ℚ) / (n : ℚ) := natFrac_nonneg a n
    have ha1 : (a : ℚ) / (n : ℚ) ≤ 1 := natFrac_le_one (h a (by simp))
    rcases List.mem_cons.mp hj with hja | hjr
    · subst hja
      simp only [fracProd, List.map_cons, List.prod_cons]
      calc (j : ℚ) / (n : ℚ) * fracProd rest n
          ≤ (j : ℚ) / (n : ℚ) * 1 := mul_le_mul_of_nonneg_left hr1 ha
        _ = (j : ℚ) / (n : ℚ) := by ring
    · have hIH : fracProd rest n ≤ (j : ℚ) / (n : ℚ) :=
        ih (fun s hs => h s (by simp [hs])) hjr
      simp only [fracProd, List.map_cons, List.prod_cons]
      calc (a : ℚ) / (n : ℚ) * fracProd rest n
          ≤ 1 * fracProd rest n := mul_le_mul_of_nonneg_right ha1 hr0
        _ ≤ (j : ℚ) / (n : ℚ) := by simpa using hIH

theorem sum_map_natFrac (sizes : List Nat) (n : Nat) :
    (sizes.map (fun (s : Nat) => (s : ℚ) / (n : ℚ))).sum =
      ((sizes.sum : Nat) : ℚ) / (n : ℚ) := by
  induction sizes with
  | nil => simp
  | cons a rest ih =>
    simp only [List.map_cons, List.sum_cons, ih]
    rw [Nat.cast_add, add_div]

theorem foldr_max_le {l : List Nat} {b : Nat} (h : ∀ x ∈ l, x ≤ b) :
    l.foldr Nat.max 0 ≤ b := by
  induction l with
  | nil => exact Nat.zero_le b
  | cons a rest ih =>
    simp only [List.foldr_cons]
    exact Nat.max_le.mpr ⟨h a (by simp), ih fun x hx => h x (by simp [hx])⟩

theorem le_foldr_min {l : List Nat} {b v : Nat} (h : ∀ x ∈ l, v ≤ x)
    (hb : v ≤ b) : v ≤ l.foldr Nat.min b := by
  induction l with
  | nil => exact hb
  | cons a rest ih =>
    simp only [List.foldr_cons]
    exact Nat.le_min.mpr ⟨h a (by simp), ih fun x hx => h x (by simp [hx])⟩

theorem foldr_min_le_init (l : List Nat) (b : Nat) :
    l.foldr Nat.min b ≤ b := by
  induction l with
  | nil => exact Nat.le_refl b
  | cons a rest ih =>
    simp only [List.foldr_cons]
    exact le_trans (Nat.min_le_right _ _) ih

theorem sum_filter_disjoint_le {α : Type} (l : List α) (p q : α → Bool)
    (f : α → Nat) (hpq : ∀ x, p x = true → q x = false) :
    ((l.filter p).map f).sum + ((l.filter q).map f).sum ≤ (l.map f).sum := by
  induction l with
  | nil => simp
  | cons a rest ih =>
    cases hp : p a with
    | true =>
      have hq : q a = false := hpq a hp
      simp [List.filter_cons, hp, hq]
      omega
    | false =>
      cases hq : q a with
      | true =>
        simp [List.filter_cons, hp, hq]
        omega
      | false =>
        simp [List.filter_cons, hp, hq]
        omega

theorem nat_le_floor_toNat {j : Nat} {x : ℚ} (h : (j : ℚ) ≤ x) :
    j ≤ (⌊x⌋).toNat := by
  have hf : (j : ℤ) ≤ ⌊x⌋ := Int.le_floor.mpr (by exact_mod_cast h)
  omega

theorem floor_toNat_le {b : Nat} {x : ℚ} (h : x ≤ (b : ℚ)) :
    (⌊x⌋).toNat ≤ b := by
  have hf : ⌊x⌋ ≤ (b : ℤ) := by
    have := Int.floor_mono h
    rwa [Int.floor_natCast] at this
  omega

/-- The `any-of` estimate triple is ordered and bounded by the point count
whenever every posting size is. -/
theorem anyOfEstimate_wf {sizes : List Nat} {n : Nat}
    (h : ∀ s ∈ sizes, s ≤ n) :
    (anyOfEstimate sizes n).min ≤ (anyOfEstimate sizes n).exp ∧
      (anyOfEstimate sizes n).exp ≤ (anyOfEstimate sizes n).max ∧
      (anyOfEstimate sizes n).max ≤ n := by
  simp only [anyOfEstimate]
  have hjexp : ∀ j ∈ sizes,
      j ≤ (⌊(n : ℚ) * (1 - complementProd sizes n)⌋).toNat := by
    intro j hj
    apply nat_le_floor_toNat
    rcases Nat.eq_zero_or_pos n with rfl | hn
    · have hj0 : j = 0 := Nat.le_zero.mp (h j hj)
      subst hj0
      simp
    · have hcp := complementProd_le_one_sub h hj
      have hn' : (n : ℚ) ≠ 0 := by
        exact_mod_cast hn.ne'
      have hmul : (n : ℚ) * ((j : ℚ) / (n : ℚ)) ≤
          (n : ℚ) * (1 - complementProd sizes n) :=
        mul_le_mul_of_nonneg_left (by linarith) (by positivity)
      calc (j : ℚ) = (n : ℚ) * ((j : ℚ) / (n : ℚ)) := by
            field_simp
        _ ≤ (n : ℚ) * (1 - complementProd sizes n) := hmul
  have hexpmax : (⌊(n : ℚ) * (1 - complementProd sizes n)⌋).toNat ≤
      Nat.min sizes.sum n := by
    apply floor_toNat_le
    rw [Nat.cast_min]
    apply le_min
    · rcases Nat.eq_zero_or_pos n with rfl | hn
      · simp only [Nat.cast_zero, zero_mul]
        positivity
      · have hsum := one_sub_complementProd_le_sum h
        rw [sum_map_natFrac] at hsum
        have hn' : (n : ℚ) ≠ 0 := by
          exact_mod_cast hn.ne'
        calc (n : ℚ) * (1 - complementProd sizes n)
            ≤ (n : ℚ) * (((sizes.sum : Nat) : ℚ) / (n : ℚ)) :=
              mul_le_mul_of_nonneg_left hsum (by positivity)
          _ = ((sizes.sum : Nat) : ℚ) := by field_simp
    · have hcp0 := complementProd_nonneg h
      calc (n : ℚ) * (1 - complementProd sizes n) ≤ (n : ℚ) * 1 :=
            mul_le_mul_of_nonneg_left (by linarith) (by positivity)
        _ = (n : ℚ) := mul_one _
  exact ⟨foldr_max_le hjexp, hexpmax, Nat.min_le_right _ _⟩

/-- The full-text estimate triple is ordered and bounded by the point count
whenever every token posting size is. -/
theorem fullTextEstimate_wf (m : FullTextIndexModel) (query : String)
    (h : ∀ t, m.postingSize t ≤ m.pointCount) :
    (fullTextEstimate m query).min ≤ (fullTextEstimate m query).exp ∧
      (fullTextEstimate m query).exp ≤ (fullTextEstimate m query).max ∧
      (fullTextEstimate m query).max ≤ m.pointCount := by
  simp only [fullTextEstimate]
  set sizes := (m.tokenize query).map m.postingSize with hsizes
  have hall : ∀ s ∈ sizes, s ≤ m.pointCount := by
    intro s hs
    obtain ⟨t, _, rfl⟩ := List.mem_map.mp hs
    exact h t
  refine ⟨Nat.zero_le _, ?_, foldr_min_le_init _ _⟩
  apply le_foldr_min
  · intro j hj
    apply floor_toNat_le
    rcases Nat.eq_zero_or_pos m.pointCount with hz | hn
    · rw [hz]
      simp
    · have hcp := fracProd_le_mem hall hj
      have hn' : (m.pointCount : ℚ) ≠ 0 := by
        exact_mod_cast hn.ne'
      calc (m.pointCount : ℚ) * fracProd sizes m.pointCount
          ≤ (m.pointCount : ℚ) * ((j : ℚ) / (m.pointCount : ℚ)) :=
            mul_le_mul_of_nonneg_left hcp (by positivity)
        _ = (j : ℚ) := by field_simp
  · apply floor_toNat_le
    calc (m.pointCount : ℚ) * fracProd sizes m.pointCount
        ≤ (m.pointCount : ℚ) * 1 :=
          mul_le_mul_of_nonneg_left (fracProd_le_one hall) (by positivity)
      _ = (m.pointCount : ℚ) := mul_one _

/-- The numeric histogram estimate triple is ordered and bounded by the
point count whenever the histogram's total count is. -/
theorem numericEstimate_wf (m : NumericIndexModel) (r : NumRange)
    (h : (m.buckets.map (fun b => b.2.2)).sum ≤ m.pointCount) :
    (numericEstimate m r).min ≤ (numericEstimate m r).exp ∧
      (numericEstimate m r).exp ≤ (numericEstimate m r).max ∧
      (numericEstimate m r).max ≤ m.pointCount := by
  simp only [numericEstimate]
  have hdisj : ∀ b, bucketFull r b = true → bucketPart r b = false := by
    intro b hb
    simp [bucketPart, hb]
  have hsum := sum_filter_disjoint_le m.buckets (bucketFull r) (bucketPart r)
    (fun b => b.2.2) hdisj
  refine ⟨Nat.le_add_right _ _, ?_, ?_⟩
  · exact Nat.add_le_add_left (Nat.div_le_self _ _) _
  · omega

/-- The map index estimate triple is ordered and bounded by the point
count whenever every posting size is. -/
theorem mapEstimate_bounds (m : MapIndexModel) (arm : Option MatchArm)
    (est : CardinalityEstimation)
    (hwf : ∀ v, m.postingSize v ≤ m.pointCount)
    (hest : mapEstimate m arm = some est) :
    est.min ≤ est.exp ∧ est.exp ≤ est.max ∧ est.max ≤ m.pointCount := by
  cases arm with
  | none => cases hest
  | some a =>
    cases a with
    | value v =>
      simp only [mapEstimate, Option.some.injEq] at hest
      subst hest
      exact ⟨Nat.le_refl _, Nat.le_refl _, hwf v⟩
    | anyOf vs =>
      simp only [mapEstimate, Option.some.injEq] at hest
      subst hest
      apply anyOfEstimate_wf
      intro s hs
      obtain ⟨v, _, rfl⟩ := List.mem_map.mp hs
      exact hwf v
    | exceptOf vs =>
      simp only [mapEstimate, Option.some.injEq] at hest
      subst hest
      have hh : ∀ s ∈ vs.map m.postingSize, s ≤ m.pointCount := by
        intro s hs
        obtain ⟨v, _, rfl⟩ := List.mem_map.mp hs
        exact hwf v
      obtain ⟨h1, h2, h3⟩ := anyOfEstimate_wf hh
      exact ⟨Nat.sub_le_sub_left h2 _, Nat.sub_le_sub_left h1 _,
        Nat.sub_le _ _⟩
    | text t => cases hest
    | phrase p => cases hest

/-- C6: whenever `estimate_cardinality` answers `Some`, the estimate triple
of a well-formed index satisfies
`min ≤ expected ≤ max ≤ count_indexed_points`. -/
theorem estimate_cardinality_bounds (idx : FieldIndex) (c : FieldCondition)
    (est : CardinalityEstimation) (hwf : idx.WF)
    (hest : idx.estimate_cardinality c = some est) :
    est.min ≤ est.exp ∧ est.exp ≤ est.max ∧
      est.max ≤ idx.count_indexed_points := by
  cases idx with
  | IntIndex m =>
    cases hr : c.range with
    | none => simp [FieldIndex.estimate_cardinality, hr] at hest
    | some r =>
      simp only [FieldIndex.estimate_cardinality, hr, Option.map_some',
        Option.some.injEq] at hest
      exact hest ▸ numericEstimate_wf m r hwf
  | DatetimeIndex m =>
    cases hr : c.range with
    | none => simp [FieldIndex.estimate_cardinality, hr] at hest
    | some r =>
      simp only [FieldIndex.estimate_cardinality, hr, Option.map_some',
        Option.some.injEq] at hest
      exact hest ▸ numericEstimate_wf m r hwf
  | FloatIndex m =>
    cases hr : c.range with
    | none => simp [FieldIndex.estimate_cardinality, hr] at hest
    | some r =>
      simp only [FieldIndex.estimate_cardinality, hr, Option.map_some',
        Option.some.injEq] at hest
      exact hest ▸ numericEstimate_wf m r hwf
  | UuidIndex m =>
    cases hr : c.range with
    | none => simp [FieldIndex.estimate_cardinality, hr] at hest
    | some r =>
      simp only [FieldIndex.estimate_cardinality, hr, Option.map_some',
        Option.some.injEq] at hest
      exact hest ▸ numericEstimate_wf m r hwf
  | IntMapIndex m =>
    exact mapEstimate_bounds m c.matchArm est hwf hest
  | KeywordIndex m =>
    exact mapEstimate_bounds m c.matchArm est hwf hest
  | UuidMapIndex m =>
    exact mapEstimate_bounds m c.matchArm est hwf hest
  | GeoIndex m =>
    cases hg : c.geo with
    | none => simp [FieldIndex.estimate_cardinality, hg] at hest
    | some q =>
      simp only [FieldIndex.estimate_cardinality, hg, Option.map_some',
        Option.some.injEq] at hest
      subst hest
      exact ⟨Nat.zero_le _, Nat.le_refl _, Nat.min_le_right _ _⟩
  | FullTextIndex m =>
    cases ha : c.matchArm with
    | none => simp [FieldIndex.estimate_cardinality, ha] at hest
    | some arm =>
      cases arm <;>
        simp only [FieldIndex.estimate_cardinality, ha,
          Option.some.injEq] at hest <;>
        first
          | (exact hest ▸ fullTextEstimate_wf m _ hwf)
          | cases hest
  | BoolIndex m =>
    cases ha : c.matchArm with
    | none => simp [FieldIndex.estimate_cardinality, ha] at hest
    | some arm =>
      cases arm with
      | value v =>
        cases v with
        | bool b =>
          simp only [FieldIndex.estimate_cardinality, ha,
            Option.some.injEq] at hest
          subst hest
          cases b
          · exact ⟨Nat.le_refl _, Nat.le_refl _,
              by simpa [boolEstimate] using hwf.2⟩
          · exact ⟨Nat.le_refl _, Nat.le_refl _,
              by simpa [boolEstimate] using hwf.1⟩
        | null => simp [FieldIndex.estimate_cardinality, ha] at hest
        | num k => simp [FieldIndex.estimate_cardinality, ha] at hest
        | str s => simp [FieldIndex.estimate_cardinality, ha] at hest
        | arr xs => simp [FieldIndex.estimate_cardinality, ha] at hest
        | obj fs => simp [FieldIndex.estimate_cardinality, ha] at hest
      | anyOf vs => simp [FieldIndex.estimate_cardinality, ha] at hest
      | exceptOf vs => simp [FieldIndex.estimate_cardinality, ha] at hest
      | text t => simp [FieldIndex.estimate_cardinality, ha] at hest
      | phrase p => simp [FieldIndex.estimate_cardinality, ha] at hest
  | NullIndex m =>
    simp only [FieldIndex.estimate_cardinality, nullEstimate] at hest
    cases hn : c.isNullArm with
    | some flag =>
      rw [hn] at hest
      simp only [Option.some.injEq] at hest
      subst hest
      cases flag
      · exact ⟨Nat.le_refl _, Nat.le_refl _, Nat.sub_le _ _⟩
      · exact ⟨Nat.le_refl _, Nat.le_refl _, by simpa using hwf.1⟩
    | none =>
      rw [hn] at hest
      cases he : c.isEmptyArm with
      | some flag =>
        rw [he] at hest
        simp only [Option.some.injEq] at hest
        subst hest
        cases flag
        · exact ⟨Nat.le_refl _, Nat.le_refl _, Nat.sub_le _ _⟩
        · exact ⟨Nat.le_refl _, Nat.le_refl _, by simpa using hwf.2⟩
      | none =>
        rw [he] at hest
        cases hest

/-- A concrete bool-index engine model over two points. -/
def boolIndexModel1 : BoolIndexModel :=
  { trueCount := 1
    falseCount := 1
    truePoints := [0]
    falsePoints := [1]
    pointCount := 2 }

/-- The condition matching the boolean value `true`. -/
def boolCondTrue : FieldCondition :=
  { matchArm := some (MatchArm.value (JsonValue.bool true))
    range := none
    geo := none
    isNullArm := none
    isEmptyArm := none }

/-- C6 witness: a concrete bool index with both hypotheses discharged: the
estimate is `some (1, 1, 1)` with `1 ≤ 1 ≤ 1 ≤ 2`. -/
theorem estimate_cardinality_bounds_witness :
    (CardinalityEstimation.mk 1 1 1).min ≤ (CardinalityEstimation.mk 1 1 1).exp ∧
      (CardinalityEstimation.mk 1 1 1).exp ≤ (CardinalityEstimation.mk 1 1 1).max ∧
      (CardinalityEstimation.mk 1 1 1).max ≤
        (FieldIndex.BoolIndex boolIndexModel1).count_indexed_points :=
  estimate_cardinality_bounds (FieldIndex.BoolIndex boolIndexModel1)
    boolCondTrue (CardinalityEstimation.mk 1 1 1)
    ⟨by decide, by decide⟩ rfl

/-! ## Quantized multivector query scorer
(`quantized_multi_query_scorer.rs`) -/

/-- Modelled from the spec (§4.9): `HardwareCounterCell` (in the `common`
crate, not under `src/`): the accumulated vector-IO-read byte count and the
multiplier applied to every vector-IO-read charge. -/
structure HardwareCounterCell where
  vectorIoRead : Nat
  vectorIoReadMultiplier : Nat

/-- `set_vector_io_read_multiplier`. -/
def HardwareCounterCell.set_vector_io_read_multiplier
    (c : HardwareCounterCell) (m : Nat) : HardwareCounterCell :=
  { c with vectorIoReadMultiplier := m }

/-- Modelled from the spec (§4.9): `vector_io_read().incr_delta(d)` charges
`multiplier * d` bytes ("bytes read from disk, multiplied by
`is_on_disk ? 1 : 0`"). -/
def HardwareCounterCell.incrVectorIoReadDelta (c : HardwareCounterCell)
    (delta : Nat) : HardwareCounterCell :=
  { c with vectorIoRead := c.vectorIoRead + c.vectorIoReadMultiplier * delta }

/-- `MultivectorOffset`: where a multivector's sub-vectors start and how
many there are. -/
structure MultivectorOffset where
  start : Nat
  count : Nat

/-- `size_of::<MultivectorOffset>()`: two 32-bit fields. -/
def multivectorOffsetByteSize : Nat := 8

/-- Modelled from the spec: the quantized multivector storage
(`TEncodedVectors : EncodedVectors + MultivectorOffsets`, in the
`quantization` crate, not under `src/`).  Scores are pure functions of the
query and the point offsets — per the spec, counters "do not influence
correctness" — and the storage's own IO charging is modelled separately as
a byte count it pushes through the same counter cell. -/
structure EncodedVectorsModel (Query Score : Type) where
  isOnDisk : Bool
  quantizedVectorSize : Nat
  getOffset : Nat → MultivectorOffset
  encodeQuery : List ℚ → Query
  scorePoint : Query → Nat → Score
  scorePointIoCharge : Query → Nat → Nat
  scoreInternalScore : Nat → Nat → Score
  scoreInternalIoCharge : Nat → Nat → Nat

/-- `QuantizedMultiQueryScorer`: the encoded query, the storage and the
owned hardware counter. -/
structure QuantizedMultiQueryScorer (Query Score : Type) where
  query : Query
  quantizedMultivectorStorage : EncodedVectorsModel Query Score
  hardwareCounter : HardwareCounterCell

/-- `QuantizedMultiQueryScorer::new_multi`
(`quantized_multi_query_scorer.rs` lines 36–66): preprocess and encode the
raw query (the metric/element preprocessing pipeline is abstracted into the
two function arguments), then set the counter's vector-IO-read multiplier
to `usize::from(storage.is_on_disk())`. -/
def QuantizedMultiQueryScorer.new_multi {Query Score : Type}
    (preprocess quantizationPreprocess : List ℚ → List ℚ)
    (raw_query : List (List ℚ))
    (storage : EncodedVectorsModel Query Score)
    (hardware_counter : HardwareCounterCell) :
    QuantizedMultiQueryScorer Query Score :=
  let query := storage.encodeQuery
    (raw_query.flatMap fun inner => quantizationPreprocess (preprocess inner))
  let hardware_counter := hardware_counter.set_vector_io_read_multiplier
    (if storage.isOnDisk then 1 else 0)
  { query := query
    quantizedMultivectorStorage := storage
    hardwareCounter := hardware_counter }

/-- `QueryScorer::score_stored` (`quantized_multi_query_scorer.rs` lines
78–88): charge the offset plus the quantized sub-vectors to the counter,
then score the point (the storage batches its own IO through the same
counter).  The Rust counter cell is interior-mutable; here the updated cell
is returned alongside the score. -/
def QuantizedMultiQueryScorer.score_stored {Query Score : Type}
    (s : QuantizedMultiQueryScorer Query Score) (idx : Nat) :
    Score × HardwareCounterCell :=
  let multi_vector_offset := s.quantizedMultivectorStorage.getOffset idx
  let sub_vectors_count := multi_vector_offset.count
  let counter := s.hardwareCounter.incrVectorIoReadDelta
    (multivectorOffsetByteSize +
      s.quantizedMultivectorStorage.quantizedVectorSize * sub_vectors_count)
  let counter := counter.incrVectorIoReadDelta
    (s.quantizedMultivectorStorage.scorePointIoCharge s.query idx)
  (s.quantizedMultivectorStorage.scorePoint s.query idx, counter)

/-- `QueryScorer::score_internal` (`quantized_multi_query_scorer.rs` lines
94–97). -/
def QuantizedMultiQueryScorer.score_internal {Query Score : Type}
    (s : QuantizedMultiQueryScorer Query Score) (point_a point_b : Nat) :
    Score × HardwareCounterCell :=
  (s.quantizedMultivectorStorage.scoreInternalScore point_a point_b,
    s.hardwareCounter.incrVectorIoReadDelta
      (s.quantizedMultivectorStorage.scoreInternalIoCharge point_a point_b))

/-- C7: `new_multi` sets the vector-IO-read multiplier to 1 exactly when
the storage is on disk and to 0 otherwise; with in-memory storage every
subsequent `score_stored` leaves the accumulated vector-IO-read byte count
unchanged. -/
theorem new_multi_io_read_multiplier {Query Score : Type}
    (preprocess quantizationPreprocess : List ℚ → List ℚ)
    (raw_query : List (List ℚ))
    (storage : EncodedVectorsModel Query Score)
    (hardware_counter : HardwareCounterCell) :
    (QuantizedMultiQueryScorer.new_multi preprocess quantizationPreprocess
        raw_query storage hardware_counter).hardwareCounter.vectorIoReadMultiplier =
      (if storage.isOnDisk then 1 else 0) ∧
    (storage.isOnDisk = false → ∀ idx,
      ((QuantizedMultiQueryScorer.new_multi preprocess quantizationPreprocess
          raw_query storage hardware_counter).score_stored idx).2.vectorIoRead =
        hardware_counter.vectorIoRead) := by
  refine ⟨rfl, ?_⟩
  intro hdisk idx
  simp [QuantizedMultiQueryScorer.new_multi,
    QuantizedMultiQueryScorer.score_stored,
    HardwareCounterCell.incrVectorIoReadDelta,
    HardwareCounterCell.set_vector_io_read_multiplier, hdisk]

/-- A concrete in-memory encoded-vectors storage model. -/
def encodedVectorsModel0 : EncodedVectorsModel Unit Int :=
  { isOnDisk := false
    quantizedVectorSize := 4
    getOffset := fun _ => { start := 0, count := 1 }
    encodeQuery := fun _ => ()
    scorePoint := fun _ _ => 0
    scorePointIoCharge := fun _ _ => 4
    scoreInternalScore := fun _ _ => 0
    scoreInternalIoCharge := fun _ _ => 4 }

/-- C7 witness: with concrete in-memory storage the hypothesis holds and a
`score_stored` call charges zero bytes. -/
theorem new_multi_io_read_multiplier_witness :
    ((QuantizedMultiQueryScorer.new_multi id id [[1]] encodedVectorsModel0
        (HardwareCounterCell.mk 0 1)).score_stored 0).2.vectorIoRead =
      (HardwareCounterCell.mk 0 1).vectorIoRead :=
  (new_multi_io_read_multiplier id id [[1]] encodedVectorsModel0
      (HardwareCounterCell.mk 0 1)).2 rfl 0

/-- C8: hardware counters do not influence scores: two scorers differing
only in the prior accumulated counter state return the same score from
`score_stored` on the same point offset, and likewise from
`score_internal` on the same pair of offsets. -/
theorem scores_independent_of_counter_state {Query Score : Type}
    (query : Query) (storage : EncodedVectorsModel Query Score)
    (c1 c2 : HardwareCounterCell) (idx point_a point_b : Nat) :
    ((QuantizedMultiQueryScorer.mk query storage c1).score_stored idx).1 =
      ((QuantizedMultiQueryScorer.mk query storage c2).score_stored idx).1 ∧
    ((QuantizedMultiQueryScorer.mk query storage c1).score_internal
        point_a point_b).1 =
      ((QuantizedMultiQueryScorer.mk query storage c2).score_internal
        point_a point_b).1 :=
  ⟨rfl, rfl⟩

/-! ## gRPC auth middleware (`src/tonic/auth.rs`) -/

/-- `AuthError` from `common::auth`. -/
inductive AuthError where
  | Unauthorized (e : String)
  | Forbidden (e : String)
  | StorageError (e : String)

/-- The `tonic::Status` values `check` can produce: `unauthenticated`,
`permission_denied`, or the conversion of a storage error
(`Status::from`). -/
inductive GrpcStatus where
  | unauthenticated (msg : String)
  | permissionDenied (msg : String)
  | fromStorage (msg : String)

/-- `storage::rbac::Access`: full access with a justification, or any
restricted shape (opaque here). -/
inductive Access where
  | full (justification : String)
  | restricted (descr : Nat)

/-- `InferenceToken`. -/
structure InferenceToken where
  token : Option String

/-- An HTTP/gRPC request as `check` sees it: the URI path plus the two
extension slots the middleware writes. -/
structure GrpcRequest where
  path : String
  accessExt : Option Access
  inferenceTokenExt : Option InferenceToken

/-- `check` (`auth.rs` lines 21–59).  The outcome of
`auth_keys.validate_request` on this request's headers is passed in as
`validate` (the key validation itself lives in `common::auth`, outside the
embedded source); the two health-check paths short-circuit before it is
ever consulted. -/
def check (validate : Except AuthError (Access × InferenceToken))
    (req : GrpcRequest) : Except GrpcStatus GrpcRequest :=
  if req.path = "/qdrant.Qdrant/HealthCheck" ∨
      req.path = "/grpc.health.v1.Health/Check" then
    Except.ok
      { req with
        accessExt := some (Access.full
          "Health check endpoints have full access without authentication")
        inferenceTokenExt := some { token := none } }
  else
    match validate with
    | Except.ok (access, inference_token) =>
      Except.ok
        { req with
          accessExt := some access
          inferenceTokenExt := some inference_token }
    | Except.error (AuthError.Unauthorized e) =>
      Except.error (GrpcStatus.unauthenticated e)
    | Except.error (AuthError.Forbidden e) =>
      Except.error (GrpcStatus.permissionDenied e)
    | Except.error (AuthError.StorageError e) =>
      Except.error (GrpcStatus.fromStorage e)

/-- `AuthMiddleware::call` (`auth.rs` lines 74–84): forward to the inner
service on `Ok`, answer with the status converted to HTTP on `Err`. -/
def AuthMiddleware.call {Resp : Type}
    (validate : Except AuthError (Access × InferenceToken))
    (service : GrpcRequest → Resp) (statusToHttp : GrpcStatus → Resp)
    (request : GrpcRequest) : Resp :=
  match check validate request with
  | Except.ok req => service req
  | Except.error e => statusToHttp e

/-- C9: the two health-check paths pass through with full access, without
consulting key validation (the result does not depend on the validation
outcome); every other path passes through exactly when validation succeeds,
with `Unauthorized` mapped to an unauthenticated status and `Forbidden` to
a permission-denied status. -/
theorem auth_check_routes
    (validate validate' : Except AuthError (Access × InferenceToken))
    (req : GrpcRequest) :
    (req.path = "/qdrant.Qdrant/HealthCheck" ∨
        req.path = "/grpc.health.v1.Health/Check" →
      check validate req = Except.ok
          { req with
            accessExt := some (Access.full
              "Health check endpoints have full access without authentication")
            inferenceTokenExt := some { token := none } } ∧
        check validate req = check validate' req) ∧
    (req.path ≠ "/qdrant.Qdrant/HealthCheck" ∧
        req.path ≠ "/grpc.health.v1.Health/Check" →
      ((∃ r, check validate req = Except.ok r) ↔
          ∃ a t, validate = Except.ok (a, t)) ∧
        (∀ e, validate = Except.error (AuthError.Unauthorized e) →
          check validate req = Except.error (GrpcStatus.unauthenticated e)) ∧
        (∀ e, validate = Except.error (AuthError.Forbidden e) →
          check validate req = Except.error (GrpcStatus.permissionDenied e))) := by
  constructor
  · intro hpath
    rw [check.eq_def, check.eq_def, if_pos hpath, if_pos hpath]
    exact ⟨rfl, rfl⟩
  · intro hpath
    have hcond : ¬(req.path = "/qdrant.Qdrant/HealthCheck" ∨
        req.path = "/grpc.health.v1.Health/Check") := by
      rintro (h | h)
      · exact hpath.1 h
      · exact hpath.2 h
    refine ⟨?_, ?_, ?_⟩
    · constructor
      · rintro ⟨r, hr⟩
        rw [check.eq_def, if_neg hcond] at hr
        match hv : validate with
        | Except.ok (a, t) => exact ⟨a, t, rfl⟩
        | Except.error (AuthError.Unauthorized e) => simp at hr
        | Except.error (AuthError.Forbidden e) => simp at hr
        | Except.error (AuthError.StorageError e) => simp at hr
      · rintro ⟨a, t, hv⟩
        subst hv
        rw [check.eq_def, if_neg hcond]
        exact ⟨_, rfl⟩
    · intro e hv
      subst hv
      rw [check.eq_def, if_neg hcond]
    · intro e hv
      subst hv
      rw [check.eq_def, if_neg hcond]

/-- A request to the gRPC health-check endpoint. -/
def reqHealth : GrpcRequest :=
  { path := "/qdrant.Qdrant/HealthCheck"
    accessExt := none
    inferenceTokenExt := none }

/-- A request to a non-whitelisted endpoint. -/
def reqPoints : GrpcRequest :=
  { path := "/qdrant.Points/Upsert"
    accessExt := none
    inferenceTokenExt := none }

/-- C9 witness: with failed key validation, the health-check request still
passes with full access, while the non-whitelisted request is rejected as
unauthenticated. -/
theorem auth_check_routes_witness :
    check (Except.error (AuthError.Unauthorized "no api key")) reqHealth =
        Except.ok
          { reqHealth with
            accessExt := some (Access.full
              "Health check endpoints have full access without authentication")
            inferenceTokenExt := some { token := none } } ∧
      check (Except.error (AuthError.Unauthorized "no api key")) reqPoints =
        Except.error (GrpcStatus.unauthenticated "no api key") :=
  ⟨((auth_check_routes (Except.error (AuthError.Unauthorized "no api key"))
        (Except.error (AuthError.Unauthorized "no api key")) reqHealth).1
      (Or.inl rfl)).1,
    ((auth_check_routes (Except.error (AuthError.Unauthorized "no api key"))
          (Except.error (AuthError.Unauthorized "no api key")) reqPoints).2
        ⟨by decide, by decide⟩).2.1 "no api key" rfl⟩

/-! ## Actix error helpers (`src/actix/helpers.rs`) -/

/-- `StorageError` from `storage::content_manager::errors`, abstracted to
the discriminating payload: a description everywhere, plus the optional
retry delay of `RateLimitExceeded` (a `Duration`, modelled as seconds in
`ℚ`). -/
inductive StorageError where
  | BadInput (description : String)
  | NotFound (description : String)
  | ServiceError (description : String)
  | BadRequest (description : String)
  | Locked (description : String)
  | Timeout (description : String)
  | AlreadyExists (description : String)
  | ChecksumMismatch (description : String)
  | Forbidden (description : String)
  | PreconditionFailed (description : String)
  | InferenceError (description : String)
  | RateLimitExceeded (description : String) (retryAfter : Option ℚ)
  | ShardUnavailable (description : String)

/-- `HttpError`: the newtype wrapper around `StorageError`. -/
structure HttpError where
  err : StorageError

/-- The numeric values of the `actix_web::http::StatusCode` constants used
by `HttpError::status_code`. -/
def BAD_REQUEST : Nat := 400
def NOT_FOUND : Nat := 404
def INTERNAL_SERVER_ERROR : Nat := 500
def FORBIDDEN : Nat := 403
def REQUEST_TIMEOUT : Nat := 408
def CONFLICT : Nat := 409
def TOO_MANY_REQUESTS : Nat := 429
def SERVICE_UNAVAILABLE : Nat := 503

/-- `HttpError::status_code` (`helpers.rs` lines 244–261). -/
def HttpError.status_code (e : HttpError) : Nat :=
  match e.err with
  | .BadInput _ => BAD_REQUEST
  | .NotFound _ => NOT_FOUND
  | .ServiceError _ => INTERNAL_SERVER_ERROR
  | .BadRequest _ => BAD_REQUEST
  | .Locked _ => FORBIDDEN
  | .Timeout _ => REQUEST_TIMEOUT
  | .AlreadyExists _ => CONFLICT
  | .ChecksumMismatch _ => BAD_REQUEST
  | .Forbidden _ => FORBIDDEN
  | .PreconditionFailed _ => INTERNAL_SERVER_ERROR
  | .InferenceError _ => BAD_REQUEST
  | .RateLimitExceeded _ _ => TOO_MANY_REQUESTS
  | .ShardUnavailable _ => SERVICE_UNAVAILABLE

/-- `retry_after.as_secs_f32().ceil() as u32`: the delay in seconds,
rounded up (the `f32` value is modelled exactly in `ℚ`). -/
def retryAfterSecs (d : ℚ) : Nat := (⌈d⌉).toNat

/-- `HttpError::headers` (`helpers.rs` lines 209–241): only
`RateLimitExceeded` with a retry delay inserts a header — `Retry-After`
with the delay in seconds rounded up; every other variant inserts
nothing. -/
def HttpError.headers (e : HttpError) : List (String × Nat) :=
  match e.err with
  | .RateLimitExceeded _ retry_after =>
    match retry_after with
    | some retry_after => [("Retry-After", retryAfterSecs retry_after)]
    | none => []
  | .BadInput _ => []
  | .AlreadyExists _ => []
  | .NotFound _ => []
  | .ServiceError _ => []
  | .BadRequest _ => []
  | .Locked _ => []
  | .Timeout _ => []
  | .ChecksumMismatch _ => []
  | .Forbidden _ => []
  | .PreconditionFailed _ => []
  | .InferenceError _ => []
  | .ShardUnavailable _ => []

/-- The description carried by a `StorageError` (its `Display` text). -/
def StorageError.description : StorageError → String
  | .BadInput d => d
  | .NotFound d => d
  | .ServiceError d => d
  | .BadRequest d => d
  | .Locked d => d
  | .Timeout d => d
  | .AlreadyExists d => d
  | .ChecksumMismatch d => d
  | .Forbidden d => d
  | .PreconditionFailed d => d
  | .InferenceError d => d
  | .RateLimitExceeded d _ => d
  | .ShardUnavailable d => d

/-- An HTTP response as built by the helper: status code, headers and the
error body text (timing and usage payloads omitted — they do not interact
with status or headers). -/
structure HttpResponse where
  status : Nat
  headers : List (String × Nat)
  errorMessage : Option String

/-- `process_response_error_with_inference_usage` (`helpers.rs` lines
91–117): wrap the storage error, take its status code and headers, and
build the JSON error response; `process_response_error` (lines 119–125)
forwards here. -/
def process_response_error (err : StorageError) : HttpResponse :=
  let error := HttpError.mk err
  { status := error.status_code
    headers := error.headers
    errorMessage := some error.err.description }

/-- C10: the response status is determined solely by the error kind, with
the claimed per-kind codes, and the response carries a `Retry-After`
header — the retry delay in seconds rounded up — exactly when the error is
`RateLimitExceeded` with a retry delay set. -/
theorem process_response_error_status_and_headers (err : StorageError) :
    (process_response_error err).status =
      (match err with
       | .NotFound _ => 404
       | .BadInput _ => 400
       | .BadRequest _ => 400
       | .ChecksumMismatch _ => 400
       | .InferenceError _ => 400
       | .ServiceError _ => 500
       | .PreconditionFailed _ => 500
       | .Locked _ => 403
       | .Forbidden _ => 403
       | .Timeout _ => 408
       | .AlreadyExists _ => 409
       | .RateLimitExceeded _ _ => 429
       | .ShardUnavailable _ => 503) ∧
    ((∃ n, ("Retry-After", n) ∈ (process_response_error err).headers) ↔
      ∃ d q, err = StorageError.RateLimitExceeded d (some q)) ∧
    (∀ d q, err = StorageError.RateLimitExceeded d (some q) →
      (process_response_error err).headers =
        [("Retry-After", (⌈q⌉).toNat)]) := by
  cases err with
  | RateLimitExceeded d retryAfter =>
    cases retryAfter with
    | some q =>
      refine ⟨rfl, ?_, ?_⟩
      · simp [process_response_error, HttpError.headers, retryAfterSecs]
      · intro d' q' h
        cases h
        rfl
    | none =>
      refine ⟨rfl, ?_, ?_⟩
      · simp [process_response_error, HttpError.headers]
      · intro d' q' h
        cases h
  | BadInput d =>
    exact ⟨rfl, by simp [process_response_error, HttpError.headers],
      fun d' q' h => by cases h⟩
  | NotFound d =>
    exact ⟨rfl, by simp [process_response_error, HttpError.headers],
      fun d' q' h => by cases h⟩
  | ServiceError d =>
    exact ⟨rfl, by simp [process_response_error, HttpError.headers],
      fun d' q' h => by cases h⟩
  | BadRequest d =>
    exact ⟨rfl, by simp [process_response_error, HttpError.headers],
      fun d' q' h => by cases h⟩
  | Locked d =>
    exact ⟨rfl, by simp [process_response_error, HttpError.headers],
      fun d' q' h => by cases h⟩
  | Timeout d =>
    exact ⟨rfl, by simp [process_response_error, HttpError.headers],
      fun d' q' h => by cases h⟩
  | AlreadyExists d =>
    exact ⟨rfl, by simp [process_response_error, HttpError.headers],
      fun d' q' h => by cases h⟩
  | ChecksumMismatch d =>
    exact ⟨rfl, by simp [process_response_error, HttpError.headers],
      fun d' q' h => by cases h⟩
  | Forbidden d =>
    exact ⟨rfl, by simp [process_response_error, HttpError.headers],
      fun d' q' h => by cases h⟩
  | PreconditionFailed d =>
    exact ⟨rfl, by simp [process_response_error, HttpError.headers],
      fun d' q' h => by cases h⟩
  | InferenceError d =>
    exact ⟨rfl, by simp [process_response_error, HttpError.headers],
      fun d' q' h => by cases h⟩
  | ShardUnavailable d =>
    exact ⟨rfl, by simp [process_response_error, HttpError.headers],
      fun d' q' h => by cases h⟩

/-- C10 witness: a rate-limit error with a 1.5-second retry delay yields
status 429 and a `Retry-After: 2` header. -/
theorem process_response_error_witness :
    (process_response_error
        (StorageError.RateLimitExceeded "rate limited" (some (3 / 2)))).headers =
      [("Retry-After", (⌈(3 / 2 : ℚ)⌉).toNat)] :=
  (process_response_error_status_and_headers
      (StorageError.RateLimitExceeded "rate limited" (some (3 / 2)))).2.2
    "rate limited" (3 / 2) rfl
